import Mathlib

/-!
Verification of the PDF2Muse core (`src/pdf2muse/musicxml.py` and
`src/pdf2muse/oemer_utils.py`) against its natural-language specification.

The embedding models:
* a page-scoped MusicXML document as the data the merge actually touches:
  the `part-list` child (an ordered list of part declarations, here the
  declared part ids) and the ordered list of `part` bodies, each an ordered
  list of measures (measure content is opaque, modelled as `Nat` labels);
* `join_musicxml_files` as a function from the ordered list of parse
  results (`none` = the file raises `ET.ParseError`, `some d` = it parses
  to document `d`) to an outcome: in the Python source the empty-directory
  case logs a warning and returns with no output written, the first file
  is parsed OUTSIDE the `try`/`except` (so a malformed first file raises),
  and later malformed files are skipped by the `except` branch;
* `convert_to_musescore_format` as a function from the state of the input
  file and the `format` argument to either an error (`ValueError`,
  `FileNotFoundError`, `RuntimeError` — the only errors the Python code
  raises) or the written MuseScore tree;
* the checkpoint fetch (`download_checkpoints` / `ensure_checkpoints`) over
  a filesystem modelled as the list of file paths present, recording the
  list of downloads performed.
-/

namespace PDF2Muse

/-- A `part` body: its identifying attributes (the `id` attribute) and its
ordered sequence of `measure` children.  Measure content is opaque. -/
structure Part where
  id : String
  measures : List Nat
deriving DecidableEq, Inhabited

/-- A parsed page-scoped MusicXML document, restricted to what the merge and
the projection read: the `part-list` child (`root.find("part-list")`, absent
when the document has none) as the ordered list of declared part ids, and
the ordered `part` bodies (`root.findall("part")`). -/
structure MusicXMLDoc where
  partList : Option (List String)
  parts : List Part
deriving DecidableEq, Inhabited

/-- The part-list/part-body correspondence invariant of §3 of the spec: the
part bodies match the part-list declarations in cardinality and order. -/
def docValid (d : MusicXMLDoc) : Bool :=
  d.partList == some (d.parts.map Part.id)

/-- `{ p with measures := p.measures ++ q.measures }`: the effect of
`for measure in new_part.findall("measure"): parts[i].append(measure)`
on the measure sequence of `parts[i]`. -/
def appendMeasures (p q : Part) : Part :=
  { p with measures := p.measures ++ q.measures }

/-- The loop `for i, new_part in enumerate(new_parts)` of
`join_musicxml_files`: positions `i < len(parts)` get the page's measures
appended; the trailing `new_parts` are appended whole (`parts.append`,
`root.append`).  Once the index passes the original length the `else`
branch is taken for every later index, since `parts` grows by one per
iteration, so the loop is this zip-then-append. -/
def mergeParts : List Part → List Part → List Part
  | ps, [] => ps
  | [], q :: qs => q :: qs
  | p :: ps, q :: qs => appendMeasures p q :: mergeParts ps qs

/-- Merging one successfully parsed page into the accumulated document.
The `part-list` element is never touched by `join_musicxml_files`
(new parts are appended to `root`, not to the `part-list`). -/
def mergePage (acc page : MusicXMLDoc) : MusicXMLDoc :=
  { acc with parts := mergeParts acc.parts page.parts }

/-- Outcome of `join_musicxml_files`:
* `noFiles`: the directory held no `*.musicxml` files — the function logs
  a warning and returns normally, writing no output and raising nothing;
* `parseError`: parsing the first file raised `ET.ParseError` (that parse
  is outside the `try`, so the exception propagates);
* `ok m`: the combined document `m` was written to the output file. -/
inductive JoinOutcome where
  | noFiles
  | parseError
  | ok (doc : MusicXMLDoc)
deriving DecidableEq

/-- Whether a `JoinOutcome` corresponds to an exception escaping
`join_musicxml_files`. -/
def raisesError : JoinOutcome → Bool
  | .parseError => true
  | _ => false

/-- One iteration of the `for musicxml_file in musicxml_files[1:]` loop:
a file that fails to parse is skipped (`except ET.ParseError: continue`),
a file that parses is merged in. -/
def mergeStep (acc : MusicXMLDoc) (src : Option MusicXMLDoc) : MusicXMLDoc :=
  match src with
  | none => acc
  | some page => mergePage acc page

/-- `join_musicxml_files`, over the sorted list of parse results of the
`*.musicxml` files in the input directory. -/
def join_musicxml_files : List (Option MusicXMLDoc) → JoinOutcome
  | [] => .noFiles
  | none :: _ => .parseError
  | some seed :: rest => .ok (rest.foldl mergeStep seed)

/-- The `k`-th part body's measure sequence of a document (`[]` when the
document has no `k`-th part body). -/
def measuresAt (d : MusicXMLDoc) (k : Nat) : List Nat :=
  (d.parts.getD k default).measures

/-- The concatenation, in page order, of the `k`-th part body's measure
sequences of a list of documents. -/
def concatMeasuresAt : List MusicXMLDoc → Nat → List Nat
  | [], _ => []
  | d :: ds, k => measuresAt d k ++ concatMeasuresAt ds k

/-- The `<Score>` element built by `convert_to_musescore_format`: the fixed
provenance `metaTag` (`name="source"`, text `PDF2Muse`), then the input's
`part-list` (when present) and its `part` bodies, copied unchanged. -/
structure ScoreElem where
  metaName : String
  metaText : String
  partList : Option (List String)
  parts : List Part
deriving DecidableEq

/-- The `<museScore version="4.20">` root element written by
`convert_to_musescore_format`, wrapping the `<Score>` element. -/
structure MuseScoreElem where
  version : String
  score : ScoreElem
deriving DecidableEq

/-- The pure projection performed by `convert_to_musescore_format` on a
parsed input: fixed wrapper, fixed metadata, part-list and part bodies
copied by reference with no transformation. -/
def projectDoc (d : MusicXMLDoc) : MuseScoreElem :=
  { version := "4.20",
    score := { metaName := "source", metaText := "PDF2Muse",
               partList := d.partList, parts := d.parts } }

/-- The state of the input file handed to `convert_to_musescore_format`:
missing, present but unparseable, or parsed to a document. -/
inductive FileState where
  | absent
  | malformed
  | parsed (doc : MusicXMLDoc)
deriving DecidableEq

/-- The errors `convert_to_musescore_format` can raise: `ValueError` for an
unsupported format, `FileNotFoundError` for a missing input, and
`RuntimeError` wrapping a parse or conversion failure. -/
inductive ConvError where
  | valueError
  | fileNotFoundError
  | runtimeError
deriving DecidableEq

/-- `convert_to_musescore_format`: the `format` check comes first (before
any filesystem access), then the existence check, then parsing; on success
the projected tree is written to the output file (`.ok`); every `.error`
branch raises before any output file is written. -/
def convert_to_musescore_format (input : FileState) (format : String) :
    Except ConvError MuseScoreElem :=
  if format ≠ "mscx" then .error .valueError
  else
    match input with
    | .absent => .error .fileNotFoundError
    | .malformed => .error .runtimeError
    | .parsed d => .ok (projectDoc d)

/-- The `checkpoint_files` table of `download_checkpoints`, flattened in
Python dict iteration order (insertion order): bundle directory name paired
with file name. -/
def checkpoint_files : List (String × String) :=
  [("unet_big", "1st_model.onnx"), ("unet_big", "1st_weights.h5"),
   ("seg_net", "2nd_model.onnx"), ("seg_net", "2nd_weights.h5")]

/-- `checkpoint_dir / name / filename` as a path string. -/
def checkpointPath (dir name file : String) : String :=
  dir ++ "/" ++ name ++ "/" ++ file

/-- Filesystem-and-log state threaded through the checkpoint fetch:
`files` is the set of file paths present (as a list), `downloads` the
network downloads performed, in order. -/
structure FetchState where
  files : List String
  downloads : List String
deriving DecidableEq

/-- One iteration of the download loop: `if file_path.exists() and not
force: continue`, otherwise fetch the file from the remote and write it. -/
def downloadOne (dir : String) (force : Bool) (st : FetchState)
    (nf : String × String) : FetchState :=
  let path := checkpointPath dir nf.1 nf.2
  if st.files.contains path && !force then st
  else { files := path :: st.files, downloads := st.downloads ++ [path] }

/-- `download_checkpoints`: iterate the checkpoint table over the current
filesystem, skipping files already present unless `force`. -/
def download_checkpoints (dir : String) (fs : List String) (force : Bool) :
    FetchState :=
  checkpoint_files.foldl (downloadOne dir force) { files := fs, downloads := [] }

/-- The `critical_files` list of `ensure_checkpoints`: only the two
`.onnx` model files. -/
def critical_files (dir : String) : List String :=
  [checkpointPath dir "unet_big" "1st_model.onnx",
   checkpointPath dir "seg_net" "2nd_model.onnx"]

/-- `ensure_checkpoints`: if all critical files exist, return at once;
otherwise run the (non-forced) download. -/
def ensure_checkpoints (dir : String) (fs : List String) : FetchState :=
  if (critical_files dir).all fs.contains then { files := fs, downloads := [] }
  else download_checkpoints dir fs false

/-! ### Helper lemmas about the merge loop -/

theorem mergeParts_length (ps qs : List Part) :
    (mergeParts ps qs).length = max ps.length qs.length := by
  induction ps generalizing qs with
  | nil => cases qs <;> simp [mergeParts]
  | cons p ps ih =>
    cases qs with
    | nil => simp [mergeParts]
    | cons q qs =>
      simp [mergeParts, ih]
      omega

theorem mergeParts_getD (ps qs : List Part) (k : Nat)
    (h : ps.length = qs.length) (hk : k < ps.length) :
    (mergeParts ps qs).getD k default =
      appendMeasures (ps.getD k default) (qs.getD k default) := by
  induction ps generalizing qs k with
  | nil => simp at hk
  | cons p ps ih =>
    cases qs with
    | nil => simp at h
    | cons q qs =>
      cases k with
      | zero => simp [mergeParts]
      | succ k =>
        simp only [mergeParts, List.getD_cons_succ]
        refine ih qs k ?_ ?_
        · simpa using h
        · simpa [Nat.succ_lt_succ_iff] using hk

theorem mergeParts_drop (ps qs : List Part) :
    (mergeParts ps qs).drop ps.length = qs.drop ps.length := by
  induction ps generalizing qs with
  | nil => cases qs <;> simp [mergeParts]
  | cons p ps ih =>
    cases qs with
    | nil => simp [mergeParts, List.drop_length]
    | cons q qs => simpa [mergeParts] using ih qs

theorem foldl_mergeStep_map_some (ds : List MusicXMLDoc) (acc : MusicXMLDoc) :
    (ds.map some).foldl mergeStep acc = ds.foldl mergePage acc := by
  induction ds generalizing acc with
  | nil => rfl
  | cons d ds ih =>
    simp only [List.map_cons, List.foldl_cons, mergeStep]
    exact ih (mergePage acc d)

theorem foldl_mergePage_partList (ds : List MusicXMLDoc) (acc : MusicXMLDoc) :
    (ds.foldl mergePage acc).partList = acc.partList := by
  induction ds generalizing acc with
  | nil => rfl
  | cons d ds ih =>
    rw [List.foldl_cons, ih (mergePage acc d)]
    rfl

theorem foldl_mergePage_measuresAt (ds : List MusicXMLDoc) :
    ∀ (acc : MusicXMLDoc) (k : Nat),
      (∀ d ∈ ds, d.parts.length = acc.parts.length) → k < acc.parts.length →
      measuresAt (ds.foldl mergePage acc) k =
        measuresAt acc k ++ concatMeasuresAt ds k := by
  induction ds with
  | nil =>
    intro acc k _ _
    simp [concatMeasuresAt]
  | cons d ds ih =>
    intro acc k h hk
    have hd : d.parts.length = acc.parts.length := h d (List.mem_cons_self _ _)
    have hlen : (mergePage acc d).parts.length = acc.parts.length := by
      simp [mergePage, mergeParts_length, hd]
    have hstep : measuresAt (mergePage acc d) k = measuresAt acc k ++ measuresAt d k := by
      unfold measuresAt mergePage
      rw [mergeParts_getD acc.parts d.parts k hd.symm hk]
      rfl
    have hrec : ∀ d' ∈ ds, d'.parts.length = (mergePage acc d).parts.length := by
      intro d' hd'
      rw [hlen]
      exact h d' (List.mem_cons_of_mem _ hd')
    have hk' : k < (mergePage acc d).parts.length := by
      rw [hlen]; exact hk
    rw [List.foldl_cons, ih (mergePage acc d) k hrec hk', hstep, concatMeasuresAt,
      List.append_assoc]

/-- From `docValid` and equal part-lists, equal part-body counts. -/
theorem docValid_same_partList_length {d e : MusicXMLDoc}
    (hd : docValid d = true) (he : docValid e = true)
    (hsame : d.partList = e.partList) : d.parts.length = e.parts.length := by
  have ed : d.partList = some (d.parts.map Part.id) := by
    simpa [docValid] using hd
  have ee : e.partList = some (e.parts.map Part.id) := by
    simpa [docValid] using he
  rw [ed, ee] at hsame
  have hmap : d.parts.map Part.id = e.parts.map Part.id := by
    exact Option.some.inj hsame
  have := congrArg List.length hmap
  simpa using this

/-! ### Claim theorems -/

/-- C1: for N ≥ 1 parseable page documents that all declare the same
part-list (and satisfy the part-list/part-body invariant), the merge
produces one document whose part-list equals the seed's and whose `k`-th
part body's measure sequence is the concatenation, in page order, of the
`k`-th part bodies' measure sequences of the inputs. -/
theorem join_same_partList_concat (d0 : MusicXMLDoc) (rest : List MusicXMLDoc)
    (hsame : ∀ d ∈ rest, d.partList = d0.partList)
    (hvalid : ∀ d ∈ d0 :: rest, docValid d = true) :
    ∃ m, join_musicxml_files ((d0 :: rest).map some) = .ok m ∧
      m.partList = d0.partList ∧
      ∀ k, k < d0.parts.length → measuresAt m k = concatMeasuresAt (d0 :: rest) k := by
  have hlen : ∀ d ∈ rest, d.parts.length = d0.parts.length := by
    intro d hd
    exact docValid_same_partList_length (hvalid d (List.mem_cons_of_mem _ hd))
      (hvalid d0 (List.mem_cons_self _ _)) (hsame d hd)
  refine ⟨rest.foldl mergePage d0, ?_, ?_, ?_⟩
  · simp [join_musicxml_files, foldl_mergeStep_map_some]
  · exact foldl_mergePage_partList rest d0
  · intro k hk
    rw [foldl_mergePage_measuresAt rest d0 k hlen hk]
    rfl

/-- Witness for C1 at two concrete one-part documents. -/
theorem join_same_partList_concat_witness :
    (∀ d ∈ [(⟨some ["P1"], [⟨"P1", [3, 4]⟩]⟩ : MusicXMLDoc)],
      d.partList = (⟨some ["P1"], [⟨"P1", [1, 2]⟩]⟩ : MusicXMLDoc).partList) ∧
    (∀ d ∈ (⟨some ["P1"], [⟨"P1", [1, 2]⟩]⟩ : MusicXMLDoc) ::
        [(⟨some ["P1"], [⟨"P1", [3, 4]⟩]⟩ : MusicXMLDoc)], docValid d = true) ∧
    (∃ m, join_musicxml_files
        (((⟨some ["P1"], [⟨"P1", [1, 2]⟩]⟩ : MusicXMLDoc) ::
          [(⟨some ["P1"], [⟨"P1", [3, 4]⟩]⟩ : MusicXMLDoc)]).map some) = .ok m ∧
      m.partList = (⟨some ["P1"], [⟨"P1", [1, 2]⟩]⟩ : MusicXMLDoc).partList ∧
      ∀ k, k < (⟨some ["P1"], [⟨"P1", [1, 2]⟩]⟩ : MusicXMLDoc).parts.length →
        measuresAt m k = concatMeasuresAt
          ((⟨some ["P1"], [⟨"P1", [1, 2]⟩]⟩ : MusicXMLDoc) ::
            [(⟨some ["P1"], [⟨"P1", [3, 4]⟩]⟩ : MusicXMLDoc)]) k) :=
  ⟨by decide, by decide,
    join_same_partList_concat ⟨some ["P1"], [⟨"P1", [1, 2]⟩]⟩
      [⟨some ["P1"], [⟨"P1", [3, 4]⟩]⟩] (by decide) (by decide)⟩

/-- C2 counterexample: a malformed document in the FIRST position aborts the
merge (the first `ET.parse` is outside the `try`/`except`), so the merge does
not equal the merge of the remaining valid document alone. -/
theorem join_malformed_first_aborts :
    join_musicxml_files [none, some ⟨some ["P1"], [⟨"P1", [1]⟩]⟩] = .parseError ∧
    join_musicxml_files [some ⟨some ["P1"], [⟨"P1", [1]⟩]⟩] =
      .ok ⟨some ["P1"], [⟨"P1", [1]⟩]⟩ ∧
    join_musicxml_files [none, some ⟨some ["P1"], [⟨"P1", [1]⟩]⟩] ≠
      join_musicxml_files [some ⟨some ["P1"], [⟨"P1", [1]⟩]⟩] :=
  ⟨rfl, rfl, by decide⟩

/-- C2 amended: a single malformed document at any position OTHER than the
first is skipped, and the merge equals the merge of the valid documents
alone; a malformed document in the first position raises a parse error. -/
theorem join_skips_malformed_after_first :
    (∀ (d : MusicXMLDoc) (l1 l2 : List MusicXMLDoc),
      join_musicxml_files (some d :: (l1.map some ++ none :: l2.map some)) =
        join_musicxml_files (some d :: (l1.map some ++ l2.map some))) ∧
    (∀ rest : List (Option MusicXMLDoc),
      join_musicxml_files (none :: rest) = .parseError) := by
  constructor
  · intro d l1 l2
    simp [join_musicxml_files, List.foldl_append, mergeStep]
  · intro rest
    rfl

/-- C3 counterexample: merging an empty sequence does not raise any error
(no `EmptyInputError` exists in the code); the function returns normally. -/
theorem join_empty_no_exception :
    raisesError (join_musicxml_files []) = false := rfl

/-- C3 amended: merging an empty sequence logs a warning and returns
normally, writing no output file and raising nothing. -/
theorem join_empty_noFiles :
    join_musicxml_files [] = JoinOutcome.noFiles := rfl

/-- C4 counterexample: a page with one extra part gets its extra part BODY
appended, but the part-list keeps only the seed's declaration — the extra
part declaration is not appended (the code appends to `root`, never to
the `part-list` element). -/
theorem join_extra_parts_not_declared :
    join_musicxml_files
        [some ⟨some ["P1"], [⟨"P1", [10]⟩]⟩,
         some ⟨some ["P1", "P2"], [⟨"P1", [20]⟩, ⟨"P2", [30]⟩]⟩] =
      .ok ⟨some ["P1"], [⟨"P1", [10, 20]⟩, ⟨"P2", [30]⟩]⟩ ∧
    (some ["P1"] : Option (List String)) ≠ some ["P1", "P2"] :=
  ⟨rfl, by decide⟩

/-- C4 amended: when a page declares more parts than the seed, the extra
trailing part BODIES are appended unchanged onto the end of the part-body
sequence, but the part-list declarations are left exactly as the seed's. -/
theorem join_appends_extra_bodies_only (seed page : MusicXMLDoc) :
    ∃ m, join_musicxml_files [some seed, some page] = .ok m ∧
      m.partList = seed.partList ∧
      m.parts.length = max seed.parts.length page.parts.length ∧
      m.parts.drop seed.parts.length = page.parts.drop seed.parts.length :=
  ⟨mergePage seed page, rfl, rfl, mergeParts_length seed.parts page.parts,
    mergeParts_drop seed.parts page.parts⟩

/-- C5: the merge is not commutative — two one-part documents with
distinguishable measure content merge to different results in the two
orders. -/
theorem join_not_commutative :
    join_musicxml_files
        [some ⟨some ["P1"], [⟨"P1", [1]⟩]⟩, some ⟨some ["P1"], [⟨"P1", [2]⟩]⟩] ≠
      join_musicxml_files
        [some ⟨some ["P1"], [⟨"P1", [2]⟩]⟩, some ⟨some ["P1"], [⟨"P1", [1]⟩]⟩] := by
  decide

/-- C6: projection of a structurally valid merged document succeeds and its
result is exactly the fixed `museScore version="4.20"` wrapper with the fixed
`source = PDF2Muse` metadata node, the input's part-list unchanged, and the
input's part bodies (hence every measure sequence) unchanged — so it differs
from the input only in the wrapper and the metadata node. -/
theorem convert_preserves_content (d : MusicXMLDoc) (_h : docValid d = true) :
    convert_to_musescore_format (.parsed d) "mscx" =
      .ok { version := "4.20",
            score := { metaName := "source", metaText := "PDF2Muse",
                       partList := d.partList, parts := d.parts } } := rfl

/-- Witness for C6 at a concrete valid document. -/
theorem convert_preserves_content_witness :
    docValid ⟨some ["P1"], [⟨"P1", [1, 2]⟩]⟩ = true ∧
    convert_to_musescore_format (.parsed ⟨some ["P1"], [⟨"P1", [1, 2]⟩]⟩) "mscx" =
      .ok { version := "4.20",
            score := { metaName := "source", metaText := "PDF2Muse",
                       partList := some ["P1"], parts := [⟨"P1", [1, 2]⟩] } } :=
  ⟨by decide, convert_preserves_content ⟨some ["P1"], [⟨"P1", [1, 2]⟩]⟩ (by decide)⟩

/-- C7 counterexample: a merged document violating the part-list/part-body
invariant (two declarations, one body) is projected successfully — no
`MalformedInputError` (or any error) is raised. -/
theorem convert_no_invariant_check :
    docValid ⟨some ["P1", "P2"], [⟨"P1", [1]⟩]⟩ = false ∧
    convert_to_musescore_format (.parsed ⟨some ["P1", "P2"], [⟨"P1", [1]⟩]⟩) "mscx" =
      .ok (projectDoc ⟨some ["P1", "P2"], [⟨"P1", [1]⟩]⟩) :=
  ⟨by decide, rfl⟩

/-- C7 amended: the projection performs no invariant check at all — every
parseable merged document, valid or not, is projected successfully, with
part-list and part bodies copied unchanged. -/
theorem convert_succeeds_unconditionally (d : MusicXMLDoc) :
    convert_to_musescore_format (.parsed d) "mscx" = .ok (projectDoc d) ∧
    (projectDoc d).score.partList = d.partList ∧
    (projectDoc d).score.parts = d.parts :=
  ⟨rfl, rfl, rfl⟩

/-- C8: the (non-forced) checkpoint fetch is idempotent — when every
checkpoint file is already present, it performs no downloads and leaves the
filesystem unchanged. -/
theorem download_checkpoints_skips_existing (dir : String) (fs : List String)
    (h : ∀ nf ∈ checkpoint_files, fs.contains (checkpointPath dir nf.1 nf.2) = true) :
    download_checkpoints dir fs false = { files := fs, downloads := [] } := by
  have h1 := h ("unet_big", "1st_model.onnx") (by simp [checkpoint_files])
  have h2 := h ("unet_big", "1st_weights.h5") (by simp [checkpoint_files])
  have h3 := h ("seg_net", "2nd_model.onnx") (by simp [checkpoint_files])
  have h4 := h ("seg_net", "2nd_weights.h5") (by simp [checkpoint_files])
  have m1 : (dir ++ "/" ++ "unet_big" ++ "/" ++ "1st_model.onnx") ∈ fs := by
    simpa [checkpointPath] using h1
  have m2 : (dir ++ "/" ++ "unet_big" ++ "/" ++ "1st_weights.h5") ∈ fs := by
    simpa [checkpointPath] using h2
  have m3 : (dir ++ "/" ++ "seg_net" ++ "/" ++ "2nd_model.onnx") ∈ fs := by
    simpa [checkpointPath] using h3
  have m4 : (dir ++ "/" ++ "seg_net" ++ "/" ++ "2nd_weights.h5") ∈ fs := by
    simpa [checkpointPath] using h4
  simp [download_checkpoints, checkpoint_files, downloadOne, checkpointPath,
    m1, m2, m3, m4]

/-- Witness for C8: a filesystem holding exactly the four checkpoint files. -/
theorem download_checkpoints_skips_existing_witness :
    (∀ nf ∈ checkpoint_files,
      (["ck/unet_big/1st_model.onnx", "ck/unet_big/1st_weights.h5",
        "ck/seg_net/2nd_model.onnx", "ck/seg_net/2nd_weights.h5"] : List String).contains
          (checkpointPath "ck" nf.1 nf.2) = true) ∧
    download_checkpoints "ck"
        ["ck/unet_big/1st_model.onnx", "ck/unet_big/1st_weights.h5",
         "ck/seg_net/2nd_model.onnx", "ck/seg_net/2nd_weights.h5"] false =
      { files := ["ck/unet_big/1st_model.onnx", "ck/unet_big/1st_weights.h5",
                  "ck/seg_net/2nd_model.onnx", "ck/seg_net/2nd_weights.h5"],
        downloads := [] } :=
  ⟨by decide,
    download_checkpoints_skips_existing "ck"
      ["ck/unet_big/1st_model.onnx", "ck/unet_big/1st_weights.h5",
       "ck/seg_net/2nd_model.onnx", "ck/seg_net/2nd_weights.h5"] (by decide)⟩

/-- C9: for any format argument other than `"mscx"`, the conversion raises
`ValueError` whatever the state of the input file — even when the input is
absent, showing the check precedes the existence check and any read — and no
output is written (only the `.ok` branch writes). -/
theorem convert_rejects_bad_format (input : FileState) (format : String)
    (h : format ≠ "mscx") :
    convert_to_musescore_format input format = .error .valueError := by
  unfold convert_to_musescore_format
  rw [if_pos h]

/-- Witness for C9 at an absent input file and format `"xml"`. -/
theorem convert_rejects_bad_format_witness :
    ("xml" : String) ≠ "mscx" ∧
    convert_to_musescore_format FileState.absent "xml" = .error .valueError :=
  ⟨by decide, convert_rejects_bad_format FileState.absent "xml" (by decide)⟩

/-- C10: `ensure_checkpoints` tests only the two `.onnx` model files: when
both are present it returns with no fetch and the filesystem unchanged —
whatever else (such as the `.h5` weight files) is absent. -/
theorem ensure_checkpoints_tests_only_models (dir : String) (fs : List String)
    (h : (critical_files dir).all fs.contains = true) :
    ensure_checkpoints dir fs = { files := fs, downloads := [] } := by
  simp [ensure_checkpoints, h]

/-- Witness for C10: a filesystem holding only the two `.onnx` files, with
both `.h5` weight files absent — no download is triggered. -/
theorem ensure_checkpoints_tests_only_models_witness :
    (critical_files "ck").all
        (["ck/unet_big/1st_model.onnx", "ck/seg_net/2nd_model.onnx"] : List String).contains = true ∧
    (["ck/unet_big/1st_model.onnx", "ck/seg_net/2nd_model.onnx"] : List String).contains
        "ck/unet_big/1st_weights.h5" = false ∧
    (["ck/unet_big/1st_model.onnx", "ck/seg_net/2nd_model.onnx"] : List String).contains
        "ck/seg_net/2nd_weights.h5" = false ∧
    ensure_checkpoints "ck" ["ck/unet_big/1st_model.onnx", "ck/seg_net/2nd_model.onnx"] =
      { files := ["ck/unet_big/1st_model.onnx", "ck/seg_net/2nd_model.onnx"],
        downloads := [] } :=
  ⟨by decide, by decide, by decide,
    ensure_checkpoints_tests_only_models "ck"
      ["ck/unet_big/1st_model.onnx", "ck/seg_net/2nd_model.onnx"] (by decide)⟩

end PDF2Muse
